import Mathlib

/-!
Verification development for the CheckMyHouse repository.

Shallow embedding of the capability-probing, fallback-selection,
query-retry, response-cache and rate-limiting logic of the repository
(`lib/clickhouse.js`, `lib/errors.js`, `lib/cache.js`, and the
`app/api/clickhouse/...` route handlers), together with theorems settling
the specification claims about that logic.

Conventions of the embedding:
* JavaScript `Map` objects are modelled as insertion-ordered association
  lists with unique keys (`JsMap`).
* `Date.now()` is modelled by passing the current instant `now : Int`
  (milliseconds) explicitly to every operation; a single JS function body
  that calls `Date.now()` several times is modelled with one instant.
* Falsy-coalescing JS expressions (`x || d`) are modelled by explicit
  `jsOr*` helpers (`undefined`/`null` ↦ `none`, and the empty string and
  `0` are falsy).
* Fallible upstream calls (ClickHouse queries) are modelled as
  `Except`-valued inputs supplied by the caller.
-/

/-- A JavaScript `Map` with `String` keys: insertion-ordered association list. -/
abbrev JsMap (α : Type) : Type := List (String × α)

/-- `Map.prototype.get`. -/
def mapGet {α : Type} (m : JsMap α) (k : String) : Option α :=
  (List.find? (fun p => p.1 == k) m).map (fun p => p.2)

/-- `Map.prototype.set`: replaces the value in place if the key is present,
otherwise appends the new entry at the end (JS insertion order). -/
def mapSet {α : Type} : JsMap α → String → α → JsMap α
  | [], k, v => [(k, v)]
  | (k', v') :: rest, k, v =>
    if k' == k then (k', v) :: rest else (k', v') :: mapSet rest k v

/-- `Map.prototype.delete` (keys are unique, so filtering is equivalent). -/
def mapDelete {α : Type} (m : JsMap α) (k : String) : JsMap α :=
  List.filter (fun p => !(p.1 == k)) m

/-- `Math.ceil(a / b)` on integers (for `b > 0`): `⌈a/b⌉ = -⌊-a/b⌋`. -/
def jsMathCeilDiv (a b : Int) : Int := -((-a).fdiv b)

/-- A cached response entry (`lib/cache.js`, `ResponseCache.set`). -/
structure CacheEntry (α : Type) where
  data : α
  expiresAt : Int
  createdAt : Int
  lastAccessed : Int
  hits : Nat
deriving DecidableEq

/-- The `ResponseCache` class state (`lib/cache.js`): response cache map,
rate-limit counters and the shared rate window start. -/
structure ResponseCache (α : Type) where
  cache : JsMap (CacheEntry α)
  requestCounts : JsMap Nat
  windowStart : Int
deriving DecidableEq

/-- `ResponseCache.get(key)`: returns the cached payload if present and not
expired (`Date.now() > entry.expiresAt` deletes it and returns `null`);
on a hit increments `entry.hits` and touches `entry.lastAccessed`. -/
def ResponseCache.get {α : Type} (c : ResponseCache α) (now : Int) (key : String) :
    Option α × ResponseCache α :=
  match mapGet c.cache key with
  | none => (none, c)
  | some e =>
    if e.expiresAt < now then
      (none, { c with cache := mapDelete c.cache key })
    else
      (some e.data,
       { c with cache :=
          mapSet c.cache key { e with hits := e.hits + 1, lastAccessed := now } })

/-- `ResponseCache.cleanup()`: removes expired entries, then if more than 500
remain evicts the least-recently-accessed entries down to 500
(`Array.prototype.sort` is stable; modelled by a stable merge sort). -/
def ResponseCache.cleanup {α : Type} (c : ResponseCache α) (now : Int) : ResponseCache α :=
  let purged := List.filter (fun p => !(p.2.expiresAt < now)) c.cache
  if 500 < purged.length then
    let sorted := purged.mergeSort (fun a b => a.2.lastAccessed ≤ b.2.lastAccessed)
    let toRemove := (sorted.take (sorted.length - 500)).map (fun p => p.1)
    { c with cache := List.filter (fun p => !(toRemove.contains p.1)) purged }
  else
    { c with cache := purged }

/-- `ResponseCache.set(key, data, ttlSeconds)`: stores an entry with
`expiresAt = now + ttlSeconds * 1000`, then runs `cleanup` when the map has
grown past 1000 entries. -/
def ResponseCache.set {α : Type} (c : ResponseCache α) (now : Int) (key : String)
    (data : α) (ttlSeconds : Int) : ResponseCache α :=
  let e : CacheEntry α :=
    { data := data, expiresAt := now + ttlSeconds * 1000, createdAt := now,
      lastAccessed := now, hits := 0 }
  let c1 : ResponseCache α := { c with cache := mapSet c.cache key e }
  if 1000 < c1.cache.length then c1.cleanup now else c1

/-- Result object of `ResponseCache.checkRateLimit`; `remaining` is present
only on the allow branch and `resetIn` only on the deny branch. -/
structure RateLimitResult where
  allowed : Bool
  limit : Nat
  current : Nat
  remaining : Option Nat
  resetIn : Option Int
deriving DecidableEq

/-- The `rate:${identifier}` key used by the rate limiter. -/
def rateKey (identifier : String) : String := "rate:" ++ identifier

/-- `ResponseCache.checkRateLimit(identifier, maxRequests, windowSeconds)`:
fixed-window counter; clears every counter in bulk when
`now - windowStart > windowMs`, then either denies (with
`resetIn = ceil((windowMs - (now - windowStart)) / 1000)`) or increments. -/
def ResponseCache.checkRateLimit {α : Type} (c : ResponseCache α) (now : Int)
    (identifier : String) (maxRequests : Nat) (windowSeconds : Nat) :
    RateLimitResult × ResponseCache α :=
  let windowMs : Int := (windowSeconds : Int) * 1000
  let counts : JsMap Nat :=
    if windowMs < now - c.windowStart then [] else c.requestCounts
  let windowStart : Int :=
    if windowMs < now - c.windowStart then now else c.windowStart
  let key := rateKey identifier
  let count : Nat := (mapGet counts key).getD 0
  if maxRequests ≤ count then
    ({ allowed := false, limit := maxRequests, current := count,
       remaining := none,
       resetIn := some (jsMathCeilDiv (windowMs - (now - windowStart)) 1000) },
     { c with requestCounts := counts, windowStart := windowStart })
  else
    ({ allowed := true, limit := maxRequests, current := count + 1,
       remaining := some (maxRequests - count - 1), resetIn := none },
     { c with requestCounts := mapSet counts key (count + 1),
              windowStart := windowStart })

/-- Result object of `ResponseCache.getRateLimitStatus`. -/
structure RateLimitStatus where
  limit : Nat
  current : Nat
  remaining : Nat
deriving DecidableEq

/-- `ResponseCache.getRateLimitStatus(identifier, maxRequests)`: reads the
current counter without incrementing (`remaining = Math.max(0, max - count)`,
which is truncated `Nat` subtraction). The state is returned unchanged
because the method performs no mutation. -/
def ResponseCache.getRateLimitStatus {α : Type} (c : ResponseCache α)
    (identifier : String) (maxRequests : Nat) : RateLimitStatus × ResponseCache α :=
  let count : Nat := (mapGet c.requestCounts (rateKey identifier)).getD 0
  ({ limit := maxRequests, current := count, remaining := maxRequests - count }, c)

/-- A fresh `ResponseCache` (the constructor, with `windowStart` instantiated
at instant 0). -/
def emptyCache : ResponseCache Nat :=
  { cache := [], requestCounts := [], windowStart := 0 }

/-! ### Error classification (`lib/errors.js`) -/

/-- The closed error taxonomy `ErrorTypes` of `lib/errors.js`. -/
inductive ErrorType
  | permissionDenied
  | quotaExceeded
  | connectionError
  | queryError
  | timeout
  | unknown
deriving DecidableEq

/-- The raw error thrown by the ClickHouse client (its `message` and optional
numeric `code`), as consumed by `parseClickHouseError`. -/
structure JsError where
  message : String
  code : Option Nat
deriving DecidableEq

/-- The classified `ClickHouseError`; its user-facing `details` object is not
modelled (no claim depends on it), only the classification. -/
structure ParsedError where
  message : String
  type : ErrorType
deriving DecidableEq

/-- Whether `needle` occurs as a contiguous substring of `hay`
(JS `String.prototype.includes`). -/
def hasSubstringAux (needle : List Char) : List Char → Bool
  | [] => List.isPrefixOf needle []
  | c :: cs => List.isPrefixOf needle (c :: cs) || hasSubstringAux needle cs

/-- `hay.includes(needle)`. -/
def hasSubstring (hay needle : String) : Bool :=
  hasSubstringAux needle.data hay.data

/-- `String.prototype.toLowerCase()` (all messages matched against are
ASCII, where JS and Unicode simple lowercasing agree with `Char.toLower`). -/
def lowerString (s : String) : String := (s.data.map Char.toLower).asString

/-- `parseClickHouseError(error)` (`lib/errors.js` lines 39-148): classifies by
substring matching on the lowercased message and by numeric error code, in
source order: permission, quota, timeout, connection, syntax, unknown. -/
def parseClickHouseError (e : JsError) : ParsedError :=
  let message := e.message
  let lower := lowerString message
  if hasSubstring lower "access denied" || hasSubstring lower "not enough privileges"
      || e.code == some 497 then
    { message := message, type := ErrorType.permissionDenied }
  else if hasSubstring lower "quota" || hasSubstring lower "has been exceeded"
      || e.code == some 201 then
    { message := message, type := ErrorType.quotaExceeded }
  else if hasSubstring lower "timeout" || e.code == some 159 then
    { message := message, type := ErrorType.timeout }
  else if hasSubstring lower "connection" || hasSubstring lower "econnrefused"
      || hasSubstring lower "network" then
    { message := message, type := ErrorType.connectionError }
  else if hasSubstring lower "syntax error" || e.code == some 62 then
    { message := message, type := ErrorType.queryError }
  else
    { message := message, type := ErrorType.unknown }

/-! ### Query execution with retries (`lib/clickhouse.js`, `executeQuery`) -/

/-- The `options` object of `executeQuery`; `none` models an absent field. -/
structure ExecOptions where
  maxRetries : Option Nat
  retryDelay : Option Int
  skipRetryOnPermission : Option Bool
deriving DecidableEq

/-- JS `o || d` for numbers coming from an optional field (`0` is falsy). -/
def jsOrNat (o : Option Nat) (d : Nat) : Nat :=
  match o with
  | none => d
  | some n => if n == 0 then d else n

/-- JS `o || d` for integer fields (`0` is falsy). -/
def jsOrInt (o : Option Int) (d : Int) : Int :=
  match o with
  | none => d
  | some x => if x == 0 then d else x

/-- Observable outcome of one `executeQuery` call: the returned value or
thrown classified error (`none` models the JS `undefined` return of a loop
that never runs — unreachable for the effective `maxRetries ≥ 1`), the number
of attempts actually issued, and the backoff delays awaited between them. -/
structure ExecOutcome (α : Type) where
  result : Option (Except ParsedError α)
  attemptsMade : Nat
  delays : List Int

/-- The `for (let attempt = 0; attempt < maxRetries; attempt++)` loop of
`executeQuery`, with the per-attempt client behaviour supplied as
`att : Nat → Except JsError α`. `remaining` counts the loop iterations still
permitted (`maxRetries - i`); the guard tests of the source
(`attempt === maxRetries - 1`) are kept verbatim. On an error the loop
fails fast on permission errors (when `skip`) and on quota errors, rethrows
on the last attempt, and otherwise waits `retryDelay * (attempt + 1)`
(linear backoff) and retries. -/
def executeQueryLoop {α : Type} (att : Nat → Except JsError α) (retryDelay : Int)
    (skip : Bool) (maxRetries : Nat) : Nat → Nat → List Int → ExecOutcome α
  | _, 0, delays => { result := none, attemptsMade := 0, delays := delays }
  | i, remaining + 1, delays =>
    match att i with
    | Except.ok v => { result := some (Except.ok v), attemptsMade := i + 1, delays := delays }
    | Except.error e =>
      let pe := parseClickHouseError e
      if skip && pe.type == ErrorType.permissionDenied then
        { result := some (Except.error pe), attemptsMade := i + 1, delays := delays }
      else if pe.type == ErrorType.quotaExceeded then
        { result := some (Except.error pe), attemptsMade := i + 1, delays := delays }
      else if i == maxRetries - 1 then
        { result := some (Except.error pe), attemptsMade := i + 1, delays := delays }
      else
        executeQueryLoop att retryDelay skip maxRetries (i + 1) remaining
          (delays ++ [retryDelay * ((i : Int) + 1)])

/-- `executeQuery(client, query, options)`: effective
`maxRetries = options.maxRetries || 3`,
`retryDelay = options.retryDelay || 1000`,
`skipRetryOnPermission = options.skipRetryOnPermission !== false`. -/
def executeQuery {α : Type} (att : Nat → Except JsError α) (options : ExecOptions) :
    ExecOutcome α :=
  let maxRetries := jsOrNat options.maxRetries 3
  executeQueryLoop att (jsOrInt options.retryDelay 1000)
    (!(options.skipRetryOnPermission == some false)) maxRetries 0 maxRetries []

/-! ### Module state of `lib/clickhouse.js` -/

/-- A connection config (the fields of the object handed to
`initClickHouseClient`; the client-construction defaulting of
`createClient` is not needed by any claim and is not modelled). -/
structure ChConfig where
  url : String
  username : String
  password : String
  database : String
deriving DecidableEq

/-- The `systemCapabilities` record built by `detectSystemCapabilities`. -/
structure Capabilities where
  hasQueryLog : Bool
  hasClusters : Bool
  hasParts : Bool
  hasProcesses : Bool
deriving DecidableEq

/-- Parsed ClickHouse version (`getClickHouseVersion` return value). -/
structure VersionInfo where
  full : String
  major : Nat
  minor : Nat
  patch : Nat
deriving DecidableEq

/-- The mutable module-level state of `lib/clickhouse.js`:
`clickhouseClient`, `currentConfig`, `systemCapabilities` (file header)
and the `cachedVersion` variable next to `getClickHouseVersion`.
The client value is represented by the config it was created from. -/
structure ChModuleState where
  clickhouseClient : Option ChConfig
  currentConfig : Option ChConfig
  systemCapabilities : Option Capabilities
  cachedVersion : Option VersionInfo
deriving DecidableEq

/-- The pristine module state (all four variables `null`). -/
def freshChState : ChModuleState :=
  { clickhouseClient := none, currentConfig := none,
    systemCapabilities := none, cachedVersion := none }

/-- `initClickHouseClient(config)`: stores the config, clears
`systemCapabilities` (comment in source: "Clear capabilities on reconnect")
and replaces the client. It does not touch `cachedVersion`. -/
def initClickHouseClient (config : ChConfig) (st : ChModuleState) : ChModuleState :=
  { st with currentConfig := some config,
            systemCapabilities := none,
            clickhouseClient := some config }

/-- `parseInt(digits, 10)` on a digit string. -/
def parseNatDigits (l : List Char) : Nat :=
  l.foldl (fun n c => n * 10 + (c.toNat - 48)) 0

/-- The regex `^(\d+)\.(\d+)\.(\d+)` applied to a version string: three
greedy digit runs separated by literal dots, anchored at the start; the rest
of the string is ignored. -/
def matchVersionRegex (s : String) : Option (Nat × Nat × Nat) :=
  let p1 := s.data.span Char.isDigit
  if p1.1.isEmpty then none else
  match p1.2 with
  | '.' :: r1 =>
    let p2 := r1.span Char.isDigit
    if p2.1.isEmpty then none else
    match p2.2 with
    | '.' :: r2 =>
      let p3 := r2.span Char.isDigit
      if p3.1.isEmpty then none
      else some (parseNatDigits p1.1, parseNatDigits p2.1, parseNatDigits p3.1)
    | _ => none
  | _ => none

/-- JS `o || d` for strings (`undefined`/`null` and `""` are falsy). -/
def jsOrString (o : Option String) (d : String) : String :=
  match o with
  | none => d
  | some s => if s == "" then d else s

/-- `getClickHouseVersion(client)`: returns the cached version if set;
otherwise issues `SELECT version()` (modelled by `queryResult`, carrying
`data[0]?.version` on success), applies `|| '0.0.0'`, matches the
`major.minor.patch` regex — falling back to `{major: 24, minor: 0, patch: 0}`
when the regex fails — and on a thrown error caches and returns
`{full: 'unknown', major: 19, minor: 0, patch: 0}`. -/
def getClickHouseVersion (st : ChModuleState)
    (queryResult : Except Unit (Option String)) : VersionInfo × ChModuleState :=
  match st.cachedVersion with
  | some v => (v, st)
  | none =>
    match queryResult with
    | Except.error _ =>
      let v : VersionInfo := { full := "unknown", major := 19, minor := 0, patch := 0 }
      (v, { st with cachedVersion := some v })
    | Except.ok firstRowVersion =>
      let versionString := jsOrString firstRowVersion "0.0.0"
      let v : VersionInfo :=
        match matchVersionRegex versionString with
        | some (a, b, c) =>
          { full := versionString, major := a, minor := b, patch := c }
        | none =>
          { full := versionString, major := 24, minor := 0, patch := 0 }
      (v, { st with cachedVersion := some v })

/-- `checkTableExists` / `checkColumnExists`: run an existence query each
call (no module state is read or written — these probes are not cached) and
return whether any row came back; any error or failed identifier validation
yields `false`. -/
def checkExistsProbe (validationOk : Bool) (queryResult : Except Unit (List Unit)) : Bool :=
  if !validationOk then false
  else
    match queryResult with
    | Except.error _ => false
    | Except.ok rows => 0 < rows.length

/-! ### Column query selection (`app/api/clickhouse/tables/route.js`) -/

/-- The two column-query variants of `lib/queries.js`. -/
inductive ColumnsQuery
  | basic
  | withCodec
deriving DecidableEq

/-- The query-selection logic of the tables route (lines 24-37):
`columnsQuery = GET_TABLE_COLUMNS`, replaced by the codec variant when
`(version.major >= 20 && version.minor >= 1) || hasCodecColumn`. -/
def selectColumnsQuery (version : VersionInfo) (hasCodecColumn : Bool) : ColumnsQuery :=
  if (decide (20 ≤ version.major) && decide (1 ≤ version.minor)) || hasCodecColumn then
    ColumnsQuery.withCodec
  else
    ColumnsQuery.basic

/-- The ordering "server version is at least `maj.min`" as the specification
words it (standard version ordering); used only to state claims, to be
compared against the source's selection condition. -/
def specVersionAtLeast (v : VersionInfo) (maj min' : Nat) : Prop :=
  maj < v.major ∨ (v.major = maj ∧ min' ≤ v.minor)

/-! ### The dependency-extraction regexes
(`app/api/clickhouse/materialized-views/route.js`, lines 74-96)

`/FROM\s+(?:([`\w]+)\.)?([`\w]+)/i` and `/\bTO\s+(?:([`\w]+)\.)?([`\w]+)/i`,
embedded as an explicit left-to-right scanner with the regex's greedy
backtracking semantics specialised to this pattern: after the keyword and
`\s+`, the maximal run `t` of `[`\w]` characters is the whole match unless it
is followed by a dot and a further nonempty run `u`, in which case the
optional qualifier group captures `t` and the name group captures `u`
(`[`\w]+` is greedy and excludes both whitespace and the dot, so no other
backtracking outcome is reachable). -/

/-- The backtick character (code point 96). -/
def backtick : Char := Char.ofNat 96

/-- JS `\w`: ASCII letters, digits and underscore. -/
def isWordChar (c : Char) : Bool := c.isAlpha || c.isDigit || c == '_'

/-- The character class `[`\w]`. -/
def isClassChar (c : Char) : Bool := c == backtick || isWordChar c

/-- JS `\s` restricted to the whitespace characters that can occur in the
CREATE statements handled here (space, tab, newline, carriage return,
vertical tab, form feed, no-break space; other Unicode space code points are
not modelled). -/
def isJsSpace (c : Char) : Bool :=
  c == ' ' || c == '\t' || c == '\n' || c == '\r' ||
  c == Char.ofNat 11 || c == Char.ofNat 12 || c == Char.ofNat 160

/-- Case-insensitive comparison of two characters (the regexes use the `i`
flag; all identifiers involved are ASCII). -/
def charLowerEq (a b : Char) : Bool := a.toLower == b.toLower

/-- Case-insensitively strip the keyword from the front of the input,
returning the remainder on success. -/
def stripKeyword : List Char → List Char → Option (List Char)
  | [], cs => some cs
  | _ :: _, [] => none
  | k :: ks, c :: cs => if charLowerEq k c then stripKeyword ks cs else none

/-- Match `\s+(?:([`\w]+)\.)?([`\w]+)` against the input: returns the
optional qualifier capture and the name capture. -/
def matchTail (cs : List Char) : Option (Option (List Char) × List Char) :=
  let sp := cs.span isJsSpace
  if sp.1.isEmpty then none else
  let t := sp.2.span isClassChar
  if t.1.isEmpty then none else
  match t.2 with
  | '.' :: rest =>
    let u := rest.span isClassChar
    if u.1.isEmpty then some (none, t.1) else some (some t.1, u.1)
  | _ => some (none, t.1)

/-- Whether a `\b` word boundary holds right before a word character, given
the previous character (`none` at the start of the string). -/
def boundaryBefore : Option Char → Bool
  | none => true
  | some c => !isWordChar c

/-- Left-to-right scan for the first position where the whole regex matches:
the keyword (case-insensitively, preceded by a word boundary when
`requireBoundary`, as in `\bTO`) followed by a successful `matchTail`. -/
def scanKeyword (kw : List Char) (requireBoundary : Bool) :
    Option Char → List Char → Option (Option (List Char) × List Char)
  | _, [] => none
  | prev, c :: cs =>
    let attempt : Option (Option (List Char) × List Char) :=
      if requireBoundary && !boundaryBefore prev then none
      else
        match stripKeyword kw (c :: cs) with
        | none => none
        | some rest => matchTail rest
    match attempt with
    | some r => some r
    | none => scanKeyword kw requireBoundary (some c) cs

/-- A `{database, table}` reference as produced by the dependency tiers. -/
structure TableRef where
  database : String
  table : String
deriving DecidableEq

/-- `.replace(/[`]/g, '')`: strip backticks. -/
def stripBackticks (l : List Char) : List Char :=
  l.filter (fun c => !(c == backtick))

/-- `match[1] ? match[1].replace(/[`]/g, '') : view.database`: the stripped
qualifier capture, or the view's own database when the group is absent. -/
def qualifierOr (viewDatabase : String) : Option (List Char) → String
  | some d => (stripBackticks d).asString
  | none => viewDatabase

/-- Fallback 2 of the materialized-views route (lines 74-84): match the FROM
regex against `create_table_query`; strip backticks from the captures,
defaulting the database to the view's own when the qualifier group is absent
(`fromMatch[1] ? fromMatch[1].replace(...) : view.database`); yield a source
only when the stripped table name is nonempty (`if (tbl)`). -/
def extractFromSource (viewDatabase : String) (create : String) : Option TableRef :=
  match scanKeyword "from".data false none create.data with
  | none => none
  | some (g1, g2) =>
    let db := qualifierOr viewDatabase g1
    let tbl := (stripBackticks g2).asString
    if tbl == "" then none else some { database := db, table := tbl }

/-- Fallback 3 of the materialized-views route (lines 87-96): the same
extraction for the `\bTO` regex, defaulting the target database to the
view's own database. -/
def extractToTarget (viewDatabase : String) (create : String) : Option TableRef :=
  match scanKeyword "to".data true none create.data with
  | none => none
  | some (g1, g2) =>
    let db := qualifierOr viewDatabase g1
    let tbl := (stripBackticks g2).asString
    if tbl == "" then none else some { database := db, table := tbl }

/-! ### The materialized-views route (`app/api/clickhouse/materialized-views/route.js`) -/

/-- A row of `system.dependencies` as consumed by the routes. -/
structure DepRow where
  database : String
  table : String
  dependent_database : String
  dependent_table : String
deriving DecidableEq

/-- A JSON field that may be a string, an array of strings, or absent
(`dependencies_database` / `dependencies_table` on a view row). -/
inductive DepField
  | null
  | str (s : String)
  | arr (ss : List String)
deriving DecidableEq

/-- JS truthiness of such a field (`null`/`undefined` and `""` are falsy;
any array — even empty — is truthy). -/
def jsTruthyDep : DepField → Bool
  | DepField.null => false
  | DepField.str s => !(s == "")
  | DepField.arr _ => true

/-- `Array.isArray(v) ? v : [v]` (only reached when the field is truthy). -/
def depFieldToArray : DepField → List String
  | DepField.null => []
  | DepField.str s => [s]
  | DepField.arr ss => ss

/-- JS truthiness of an optional string (`view.create_table_query`). -/
def jsTruthyStrOpt : Option String → Bool
  | none => false
  | some s => !(s == "")

/-- A materialized-view row as consumed by the route (the remaining columns
of `GET_MATERIALIZED_VIEWS` are passed through unchanged and not modelled). -/
structure ViewInfo where
  database : String
  name : String
  dependencies_database : DepField
  dependencies_table : DepField
  create_table_query : Option String
deriving DecidableEq

/-- Tier-1 source extraction (lines 46-48): rows of `system.dependencies`
whose dependent is this view. -/
def tier1Sources (deps : List DepRow) (view : ViewInfo) : List TableRef :=
  (deps.filter (fun d =>
      d.dependent_database == view.database && d.dependent_table == view.name)).map
    (fun d => { database := d.database, table := d.table })

/-- Tier-1 target extraction (lines 50-52): rows whose source is this view. -/
def tier1Targets (deps : List DepRow) (view : ViewInfo) : List TableRef :=
  (deps.filter (fun d =>
      d.database == view.database && d.table == view.name)).map
    (fun d => { database := d.dependent_database, table := d.dependent_table })

/-- Fallback 1 (lines 58-72): normalize `dependencies_database` /
`dependencies_table` to arrays, pair them up positionally
(`depTables[i] || ''` with out-of-range reads yielding `''`), default an
empty database entry to the view's database (`db || view.database`) and drop
entries with an empty table (`filter(d => d.table)`). -/
def metadataSources (view : ViewInfo) : List TableRef :=
  let depDatabases := depFieldToArray view.dependencies_database
  let depTables := depFieldToArray view.dependencies_table
  ((List.range depDatabases.length).map (fun i =>
      let db := (depDatabases.get? i).getD ""
      let tbl := (depTables.get? i).getD ""
      ({ database := if db == "" then view.database else db,
         table := tbl } : TableRef))).filter
    (fun r => !(r.table == ""))

/-- Which fallback tiers actually executed for a view (the bodies of the
three `if` statements guarding fallbacks 1-3). -/
structure FallbackTrace where
  fallback1 : Bool
  fallback2 : Bool
  fallback3 : Bool
deriving DecidableEq

/-- Per-view dependency assembly of the materialized-views route
(lines 31-105): tier 1 runs inside its own try/catch when
`system.dependencies` was probed present (a thrown query is swallowed,
leaving both lists empty); fallback 1 runs when sources are still empty and
both metadata fields are truthy; fallback 2 runs when sources are still
empty and a CREATE statement is present; fallback 3 fills targets from the
`TO` clause when targets are empty. Nothing in fallbacks 1-3 can throw, so
the enclosing per-view catch (which would return empty lists) is
unreachable and not modelled. Returns `((sources, targets), trace)`. -/
def processView (hasDepsTable : Bool) (tier1 : Except Unit (List DepRow))
    (view : ViewInfo) : (List TableRef × List TableRef) × FallbackTrace :=
  let st0 : List TableRef × List TableRef :=
    if hasDepsTable then
      match tier1 with
      | Except.ok deps => (tier1Sources deps view, tier1Targets deps view)
      | Except.error _ => ([], [])
    else ([], [])
  let fb1 := st0.1.isEmpty && jsTruthyDep view.dependencies_database
               && jsTruthyDep view.dependencies_table
  let s1 := if fb1 then metadataSources view else st0.1
  let createTruthy := jsTruthyStrOpt view.create_table_query
  let fb2 := s1.isEmpty && createTruthy
  let s2 :=
    if fb2 then
      match extractFromSource view.database (view.create_table_query.getD "") with
      | some r => [r]
      | none => s1
    else s1
  let fb3 := st0.2.isEmpty && createTruthy
  let t1 :=
    if fb3 then
      match extractToTarget view.database (view.create_table_query.getD "") with
      | some r => [r]
      | none => st0.2
    else st0.2
  ((s2, t1), { fallback1 := fb1, fallback2 := fb2, fallback3 := fb3 })

/-! ### The lineage route (`app/api/clickhouse/lineage/route.js`) -/

/-- A row of the view-metadata fallback query of the lineage route
(aliased columns `database`, `table`, `dependent_table`). -/
structure ViewDepRow where
  database : String
  table : String
  dependent_table : String
deriving DecidableEq

/-- The fallback block of the lineage route (lines 62-97): query view
metadata and convert to the standard dependency shape
(`dependent_database := vd.database`); its own catch continues with an
empty list rather than failing. -/
def lineageFallback : Except Unit (List ViewDepRow) → List DepRow
  | Except.error _ => []
  | Except.ok vds =>
    vds.map (fun vd =>
      { database := vd.database, table := vd.table,
        dependent_database := vd.database, dependent_table := vd.dependent_table })

/-- Dependency collection of the lineage route (lines 32-97).
`hasDependenciesTable` is declared `const` (line 33); the tier-1 catch block
executes `hasDependenciesTable = false`, and assigning to a `const` binding
throws a `TypeError` in JavaScript, modelled here as `Except.error ()` —
the fallback block below it is never reached on that path. -/
def lineageCollectDeps (hasDepsTable : Bool) (tier1 : Except Unit (List DepRow))
    (tier2 : Except Unit (List ViewDepRow)) : Except Unit (List DepRow) :=
  if hasDepsTable then
    match tier1 with
    | Except.error _ => Except.error ()
    | Except.ok deps =>
      if deps.isEmpty then Except.ok (lineageFallback tier2) else Except.ok deps
  else Except.ok (lineageFallback tier2)

/-- The lineage route's response: the normal JSON page (carrying the edge
list built from the collected dependencies; node construction from the
table list is orthogonal to every claim and omitted) or the
500-error JSON produced by the outer catch. -/
inductive LineageResult
  | json (edges : List (String × String))
  | errorResponse
deriving DecidableEq

/-- `GET` of the lineage route: the base table query, then dependency
collection; any exception reaching the outer try/catch produces the
error response (`status: 500`) instead of the normal page. -/
def lineageGET (tables : Except Unit (List TableRef)) (hasDepsTable : Bool)
    (tier1 : Except Unit (List DepRow)) (tier2 : Except Unit (List ViewDepRow)) :
    LineageResult :=
  match tables with
  | Except.error _ => LineageResult.errorResponse
  | Except.ok _ =>
    match lineageCollectDeps hasDepsTable tier1 tier2 with
    | Except.error _ => LineageResult.errorResponse
    | Except.ok deps =>
      LineageResult.json (deps.map (fun d =>
        (d.database ++ "." ++ d.table,
         d.dependent_database ++ "." ++ d.dependent_table)))

/-! ## Theorems settling the claims -/

/-- C1: the claim says no dependency tier's failure is fatal and the endpoint
always returns a normal response with empty dependency lists. The lineage
route violates this: when `system.dependencies` is probed present but its
query throws, the catch block's write to the `const` binding
`hasDependenciesTable` throws a `TypeError`, so the outer catch returns the
500 error response even though the (working) fallback tier was available.
The same inputs with the probe reporting the table absent, and the
materialized-views route with a failing tier-1 query, do degrade to empty
dependency data as the claim demands. -/
theorem lineage_const_reassignment_fatal :
    lineageGET (Except.ok [{ database := "raw", table := "events" }]) true
        (Except.error ()) (Except.ok [{ database := "raw", table := "events",
                                        dependent_table := "mv" }])
      = LineageResult.errorResponse
    ∧ lineageGET (Except.ok [{ database := "raw", table := "events" }]) false
        (Except.error ()) (Except.error ())
      = LineageResult.json []
    ∧ (processView true (Except.error ())
        { database := "analytics", name := "mv", dependencies_database := DepField.null,
          dependencies_table := DepField.null, create_table_query := none }).1
      = ([], []) := by
  exact ⟨rfl, rfl, rfl⟩

/-- C2: the claim says every version-probe failure yields the single
conservative oldest-supported default. In the code only a thrown query does
(`{full: 'unknown', major: 19}`); a successful query whose string fails the
regex yields `{major: 24}` (assume-newest, contradicting the documented
"Defaults to version 19.0.0 if detection fails"), and an empty version
string is silently replaced by `'0.0.0'` and parses to `{major: 0}`. -/
theorem version_probe_default_mismatch :
    (getClickHouseVersion freshChState (Except.ok (some "not-a-version"))).1
      = { full := "not-a-version", major := 24, minor := 0, patch := 0 }
    ∧ (getClickHouseVersion freshChState (Except.error ())).1
      = { full := "unknown", major := 19, minor := 0, patch := 0 }
    ∧ (getClickHouseVersion freshChState (Except.ok (some ""))).1
      = { full := "0.0.0", major := 0, minor := 0, patch := 0 } := by
  exact ⟨rfl, rfl, rfl⟩

/-- C3: the claim says the codec-extended query is selected exactly when the
probed version is at least 20.1 or the codec column is present. The source
condition `version.major >= 20 && version.minor >= 1` is not that ordering:
for version 21.0 with the column probe false the code picks the basic
variant although 21.0 ≥ 20.1. (The claim's scenario A — codec column absent
and version unparsable picks basic — does hold, last conjunct.) -/
theorem codec_selection_version_bug :
    selectColumnsQuery { full := "21.0.0", major := 21, minor := 0, patch := 0 } false
      = ColumnsQuery.basic
    ∧ specVersionAtLeast { full := "21.0.0", major := 21, minor := 0, patch := 0 } 20 1
    ∧ selectColumnsQuery
        (getClickHouseVersion freshChState (Except.ok (some "garbage"))).1 false
      = ColumnsQuery.basic := by
  exact ⟨rfl, Or.inl (by norm_num), rfl⟩

/-- C6 counterexample: a server where `system.dependencies` is present and
its query succeeds (returning no rows for this view) while the view carries
`dependencies_database`/`dependencies_table` metadata: fallback tier 2 runs
and its result — not tier 1's (empty) output — becomes the sources, refuting
"tiers 2-3 are never invoked when tier 1 is present and succeeds". -/
theorem tier1_monotonicity_cex :
    (processView true (Except.ok [])
        { database := "analytics", name := "mv",
          dependencies_database := DepField.str "raw",
          dependencies_table := DepField.str "events",
          create_table_query := none }).2.fallback1 = true
    ∧ (processView true (Except.ok [])
        { database := "analytics", name := "mv",
          dependencies_database := DepField.str "raw",
          dependencies_table := DepField.str "events",
          create_table_query := none }).1.1
      = [{ database := "raw", table := "events" }]
    ∧ tier1Sources []
        { database := "analytics", name := "mv",
          dependencies_database := DepField.str "raw",
          dependencies_table := DepField.str "events",
          create_table_query := none } = [] := by
  exact ⟨by decide, by decide, rfl⟩

/-- C9 counterexample: four `checkRateLimit(id, 3, 60)` calls, the first
three at the window start and the fourth at the exact window end
(`now - windowStart = windowMs`, which the code still treats as the same
window — no bulk reset happens). The fourth call is denied but with
`resetIn = 0`, refuting "every further call within the window is denied with
`resetIn > 0`". -/
theorem rateLimit_boundary_cex :
    (((((emptyCache.checkRateLimit 0 "id" 3 60).2.checkRateLimit 0 "id" 3 60).2.checkRateLimit
        0 "id" 3 60).2.checkRateLimit 60000 "id" 3 60).1).allowed = false
    ∧ (((((emptyCache.checkRateLimit 0 "id" 3 60).2.checkRateLimit 0 "id" 3
        60).2.checkRateLimit 0 "id" 3 60).2.checkRateLimit 60000 "id" 3 60).1).resetIn
      = some 0
    ∧ ((emptyCache.checkRateLimit 0 "id" 3 60).1).allowed = true
    ∧ (((emptyCache.checkRateLimit 0 "id" 3 60).2.checkRateLimit 0 "id" 3 60).1).allowed
      = true
    ∧ ((((emptyCache.checkRateLimit 0 "id" 3 60).2.checkRateLimit 0 "id" 3
        60).2.checkRateLimit 0 "id" 3 60).1).allowed = true
    ∧ (60000 : Int) -
        ((((emptyCache.checkRateLimit 0 "id" 3 60).2.checkRateLimit 0 "id" 3
          60).2.checkRateLimit 0 "id" 3 60).2).windowStart ≤ 60 * 1000 := by
  exact ⟨by decide, by decide, by decide, by decide, by decide, by decide⟩

/-! ### Helper lemmas about the `Map` model -/

theorem mapGet_mapSet_self {α : Type} (m : JsMap α) (k : String) (v : α) :
    mapGet (mapSet m k v) k = some v := by
  induction m with
  | nil => simp [mapSet, mapGet, List.find?]
  | cons p rest ih =>
    obtain ⟨k', v'⟩ := p
    by_cases h : k' == k
    · simp [mapSet, h, mapGet, List.find?]
    · simp only [mapSet, h, if_false, Bool.false_eq_true]
      simpa [mapGet, List.find?, h] using ih

theorem mapGet_mapDelete_self {α : Type} (m : JsMap α) (k : String) :
    mapGet (mapDelete m k) k = none := by
  induction m with
  | nil => simp [mapDelete, mapGet, List.find?]
  | cons p rest ih =>
    obtain ⟨k', v'⟩ := p
    by_cases h : k' == k
    · simp only [mapDelete] at ih ⊢
      simp [h, ih]
    · simp only [mapDelete, List.filter, h]
      simp only [mapDelete] at ih
      simp [mapGet, List.find?, h, ih]

theorem length_mapSet_le {α : Type} (m : JsMap α) (k : String) (v : α) :
    (mapSet m k v).length ≤ m.length + 1 := by
  induction m with
  | nil => simp [mapSet]
  | cons p rest ih =>
    obtain ⟨k', v'⟩ := p
    by_cases h : k' == k
    · simp [mapSet, h]
    · simp only [mapSet, h, if_false, Bool.false_eq_true, List.length_cons]
      omega

theorem jsMathCeilDiv_bounds (n : Int) (hn : 0 ≤ n) :
    0 ≤ jsMathCeilDiv n 1000 ∧ (0 < n → 0 < jsMathCeilDiv n 1000) := by
  have h1 := Int.fmod_add_fdiv (-n) 1000
  have h2 := Int.fmod_nonneg' (-n) (by norm_num : (0 : Int) < 1000)
  have h3 := Int.fmod_lt_of_pos (-n) (by norm_num : (0 : Int) < 1000)
  unfold jsMathCeilDiv
  constructor <;> omega

/-- C8: `get(key)` returns the stored payload exactly when an entry is
present and its stored expiry has not passed (`now > expiresAt` is the
expiry test); a hit increments the hit counter and touches the
last-accessed time; an expired entry is deleted and `null` returned; and an
entry stored with `ttlSeconds = 1` (into a cache small enough that the
insertion does not trip the 1000-entry cleanup) is returned immediately and
is gone 1001 ms later. -/
theorem cache_get_ttl_semantics (α : Type) (c : ResponseCache α) (now : Int)
    (key : String) :
    (∀ d : α, (c.get now key).1 = some d ↔
      ∃ e, mapGet c.cache key = some e ∧ ¬ e.expiresAt < now ∧ e.data = d)
    ∧ (∀ e, mapGet c.cache key = some e → ¬ e.expiresAt < now →
        mapGet ((c.get now key).2).cache key
          = some { e with hits := e.hits + 1, lastAccessed := now })
    ∧ (∀ e, mapGet c.cache key = some e → e.expiresAt < now →
        (c.get now key).1 = none ∧ mapGet ((c.get now key).2).cache key = none)
    ∧ (∀ (d : α) (t : Int), c.cache.length < 1000 →
        ((c.set t key d 1).get t key).1 = some d
        ∧ ((c.set t key d 1).get (t + 1001) key).1 = none) := by
  refine ⟨?_, ?_, ?_, ?_⟩
  · intro d
    constructor
    · intro hd
      cases h : mapGet c.cache key with
      | none => simp [ResponseCache.get, h] at hd
      | some e =>
        by_cases hexp : e.expiresAt < now
        · simp [ResponseCache.get, h, hexp] at hd
        · simp only [ResponseCache.get, h, hexp, if_false] at hd
          exact ⟨e, rfl, hexp, by simpa using hd⟩
    · rintro ⟨e, he, hexp, hdata⟩
      simp [ResponseCache.get, he, hexp, hdata]
  · intro e he hexp
    simp only [ResponseCache.get, he, hexp, if_false]
    exact mapGet_mapSet_self c.cache key _
  · intro e he hexp
    refine ⟨by simp [ResponseCache.get, he, hexp], ?_⟩
    simp only [ResponseCache.get, he, hexp, if_true]
    exact mapGet_mapDelete_self c.cache key
  · intro d t hlen
    have hle := length_mapSet_le c.cache key
      ({ data := d, expiresAt := t + 1000, createdAt := t,
         lastAccessed := t, hits := 0 } : CacheEntry α)
    have hset : (c.set t key d 1).cache
        = mapSet c.cache key
            { data := d, expiresAt := t + 1000, createdAt := t,
              lastAccessed := t, hits := 0 } := by
      have hno : ¬ 1000 <
          (mapSet c.cache key
            ({ data := d, expiresAt := t + 1000, createdAt := t,
               lastAccessed := t, hits := 0 } : CacheEntry α)).length := by omega
      unfold ResponseCache.set
      simp [hno]
    have hget := mapGet_mapSet_self c.cache key
      ({ data := d, expiresAt := t + 1000, createdAt := t,
         lastAccessed := t, hits := 0 } : CacheEntry α)
    constructor
    · have hfresh : ¬ (t + 1000 : Int) < t := by omega
      simp [ResponseCache.get, hset, hget, hfresh]
    · have hstale : (t + 1000 : Int) < t + 1001 := by omega
      simp [ResponseCache.get, hset, hget, hstale]

/-- Witness for C8: a fresh cache, key `"k"`, payload `5`, TTL one second,
stored at instant 0: `get` at 0 returns the payload, `get` at 1001 returns
`null`. -/
theorem cache_get_ttl_semantics_witness :
    ((emptyCache.set 0 "k" 5 1).get 0 "k").1 = some 5
    ∧ ((emptyCache.set 0 "k" 5 1).get (0 + 1001) "k").1 = none := by
  exact (cache_get_ttl_semantics Nat emptyCache 0 "k").2.2.2 5 0 (by decide)

/-! ### Interleavings of rate-limiter calls (for the frame claim) -/

/-- One call against the rate limiter: either `checkRateLimit` (at some
instant) or `getRateLimitStatus`. -/
inductive RateOp
  | check (now : Int) (id : String) (maxRequests : Nat) (windowSeconds : Nat)
  | status (id : String) (maxRequests : Nat)

/-- Whether an operation is a `checkRateLimit` call. -/
def RateOp.isCheck : RateOp → Bool
  | RateOp.check _ _ _ _ => true
  | RateOp.status _ _ => false

/-- Run a sequence of rate-limiter calls, threading the shared state and
collecting the `checkRateLimit` outcomes. -/
def runRateOps {α : Type} (c : ResponseCache α) :
    List RateOp → ResponseCache α × List RateLimitResult
  | [] => (c, [])
  | RateOp.check now id mx win :: rest =>
    let r := c.checkRateLimit now id mx win
    let tail := runRateOps r.2 rest
    (tail.1, r.1 :: tail.2)
  | RateOp.status id mx :: rest =>
    let r := c.getRateLimitStatus id mx
    runRateOps r.2 rest

/-- C10: `getRateLimitStatus` is read-only — it reports the identifier's
current counter (and the limit and truncated remaining budget) while
returning the state unchanged, so deleting every `getRateLimitStatus` call
from any interleaving leaves the final state and every `checkRateLimit`
outcome identical. -/
theorem rateLimitStatus_readonly (α : Type) (c : ResponseCache α) :
    (∀ id mx, (c.getRateLimitStatus id mx).2 = c
      ∧ ((c.getRateLimitStatus id mx).1).current
          = (mapGet c.requestCounts (rateKey id)).getD 0
      ∧ ((c.getRateLimitStatus id mx).1).limit = mx
      ∧ ((c.getRateLimitStatus id mx).1).remaining
          = mx - (mapGet c.requestCounts (rateKey id)).getD 0)
    ∧ ∀ ops, runRateOps c ops = runRateOps c (ops.filter RateOp.isCheck) := by
  refine ⟨fun id mx => ⟨rfl, rfl, rfl, rfl⟩, ?_⟩
  intro ops
  induction ops generalizing c with
  | nil => rfl
  | cons op rest ih =>
    cases op with
    | check now id mx win =>
      simp only [runRateOps, List.filter, RateOp.isCheck]
      rw [ih]
    | status id mx =>
      simp only [runRateOps, List.filter, RateOp.isCheck]
      exact ih (c.getRateLimitStatus id mx).2

/-- C9 amended: `checkRateLimit` is a fixed-window counter. While the window
has not elapsed (`now - windowStart ≤ windowMs`), a call with the counter
below the limit is allowed and increments only that identifier's counter;
a call with the counter at the limit is denied without touching the
counters, with `resetIn ≥ 0` — and `resetIn > 0` whenever the call is
strictly before the window's end instant. When a call finds the window
elapsed, every identifier's counter is cleared in bulk (the post-state
counters hold the caller's identifier alone). -/
theorem rateLimit_fixed_window (α : Type) (c : ResponseCache α) (now : Int)
    (id : String) (mx win : Nat) :
    (¬ (win : Int) * 1000 < now - c.windowStart →
      (((mapGet c.requestCounts (rateKey id)).getD 0 < mx →
         ((c.checkRateLimit now id mx win).1).allowed = true
         ∧ ((c.checkRateLimit now id mx win).1).current
             = (mapGet c.requestCounts (rateKey id)).getD 0 + 1
         ∧ ((c.checkRateLimit now id mx win).2).requestCounts
             = mapSet c.requestCounts (rateKey id)
                 ((mapGet c.requestCounts (rateKey id)).getD 0 + 1)
         ∧ ((c.checkRateLimit now id mx win).2).windowStart = c.windowStart)
       ∧ (mx ≤ (mapGet c.requestCounts (rateKey id)).getD 0 →
         ((c.checkRateLimit now id mx win).1).allowed = false
         ∧ ((c.checkRateLimit now id mx win).2).requestCounts = c.requestCounts
         ∧ ∃ r, ((c.checkRateLimit now id mx win).1).resetIn = some r
             ∧ 0 ≤ r
             ∧ (now - c.windowStart < (win : Int) * 1000 → 0 < r))))
    ∧ ((win : Int) * 1000 < now - c.windowStart → 0 < mx →
        ((c.checkRateLimit now id mx win).1).allowed = true
        ∧ ((c.checkRateLimit now id mx win).1).current = 1
        ∧ ((c.checkRateLimit now id mx win).2).requestCounts = [(rateKey id, 1)]
        ∧ ((c.checkRateLimit now id mx win).2).windowStart = now) := by
  constructor
  · intro hno
    constructor
    · intro hlt
      have hnotle : ¬ mx ≤ (mapGet c.requestCounts (rateKey id)).getD 0 := by omega
      simp [ResponseCache.checkRateLimit, hno, hnotle]
    · intro hge
      have hb := jsMathCeilDiv_bounds ((win : Int) * 1000 - (now - c.windowStart))
        (by omega)
      refine ⟨?_, ?_, jsMathCeilDiv ((win : Int) * 1000 - (now - c.windowStart)) 1000,
        ?_, hb.1, fun hstrict => hb.2 (by omega)⟩
      · simp [ResponseCache.checkRateLimit, hno, hge]
      · simp [ResponseCache.checkRateLimit, hno, hge]
      · simp [ResponseCache.checkRateLimit, hno, hge]
  · intro hyes hmx
    have hzero : (mapGet ([] : JsMap Nat) (rateKey id)).getD 0 = 0 := rfl
    have hnotle : ¬ mx ≤ (0 : Nat) := by omega
    simp [ResponseCache.checkRateLimit, hyes, hzero, hnotle, mapSet]

/-- Witness for C9 amended: an identifier already at the limit (counter 3 of
3) denied strictly inside the window, with a positive `resetIn`. -/
theorem rateLimit_fixed_window_witness :
    ((((⟨[], [("rate:id", 3)], 0⟩ : ResponseCache Nat).checkRateLimit 59999 "id" 3
        60).1).allowed = false)
    ∧ ∃ r, ((((⟨[], [("rate:id", 3)], 0⟩ : ResponseCache Nat).checkRateLimit 59999 "id"
          3 60).1).resetIn = some r) ∧ 0 < r := by
  have h := (rateLimit_fixed_window Nat ⟨[], [("rate:id", 3)], 0⟩ 59999 "id" 3 60).1
    (by decide)
  have h2 := h.2 (by decide)
  obtain ⟨r, hr, _, hrpos⟩ := h2.2.2
  exact ⟨h2.1, r, hr, hrpos (by decide)⟩

/-- C4 counterexample: after probing version 19.8.3 on one connection,
`initClickHouseClient` with a new host leaves `cachedVersion` populated, so
the next `getClickHouseVersion` — against a server that would report
25.3.1 — still returns the stale 19.8.3 record: reconnect does not
invalidate the version-probe cache. -/
theorem reconnect_version_cache_cex :
    (initClickHouseClient (ChConfig.mk "http://other:8123" "u" "p" "d")
      (getClickHouseVersion freshChState (Except.ok (some "19.8.3"))).2).cachedVersion
      = some (VersionInfo.mk "19.8.3" 19 8 3)
    ∧ (getClickHouseVersion
        (initClickHouseClient (ChConfig.mk "http://other:8123" "u" "p" "d")
          (getClickHouseVersion freshChState (Except.ok (some "19.8.3"))).2)
        (Except.ok (some "25.3.1"))).1.major = 19 := by
  exact ⟨by decide, by decide⟩

/-- C4 amended: `initClickHouseClient` invalidates only the
system-capabilities probe cache; the version-probe cache is untouched by a
reconnect (and keeps short-circuiting `getClickHouseVersion`), and the
table/column existence probes are not cached at all (`checkExistsProbe`
reads and writes no module state — it is a function of its own query's
outcome alone). -/
theorem reconnect_cache_invalidation (cfg : ChConfig) (st : ChModuleState) :
    (initClickHouseClient cfg st).systemCapabilities = none
    ∧ (initClickHouseClient cfg st).cachedVersion = st.cachedVersion
    ∧ (∀ v q, st.cachedVersion = some v → getClickHouseVersion st q = (v, st)) := by
  refine ⟨rfl, rfl, ?_⟩
  intro v q hv
  simp [getClickHouseVersion, hv]

/-- Witness for C4 amended: a state with a cached 19.8.3 version returns it
unchanged from `getClickHouseVersion` even though the probe query fails. -/
theorem reconnect_cache_invalidation_witness :
    getClickHouseVersion
        (ChModuleState.mk none none none (some (VersionInfo.mk "19.8.3" 19 8 3)))
        (Except.error ())
      = (VersionInfo.mk "19.8.3" 19 8 3,
         ChModuleState.mk none none none (some (VersionInfo.mk "19.8.3" 19 8 3))) := by
  exact (reconnect_cache_invalidation (ChConfig.mk "" "" "" "") _).2.2 _ _ rfl

/-- C5 counterexample: with default options a persistent syntax error
(classified `QUERY_ERROR`) is retried to the full three attempts, although
the claim says only connection/timeout/unknown are retried; and with
`skipRetryOnPermission: false` a permission-denied error is also retried
three times, although the claim says permission errors always fail fast. -/
theorem executeQuery_retry_classes_cex :
    (executeQuery (α := Nat)
        (fun _ => Except.error (JsError.mk "Syntax error: failed at position 1" none))
        (ExecOptions.mk none none none)).attemptsMade = 3
    ∧ (parseClickHouseError (JsError.mk "Syntax error: failed at position 1" none)).type
        = ErrorType.queryError
    ∧ (executeQuery (α := Nat)
        (fun _ => Except.error (JsError.mk "Access denied for user" none))
        (ExecOptions.mk none none (some false))).attemptsMade = 3
    ∧ (parseClickHouseError (JsError.mk "Access denied for user" none)).type
        = ErrorType.permissionDenied := by
  exact ⟨by decide, by decide, by decide, by decide⟩

theorem one_le_jsOrNat (o : Option Nat) : 1 ≤ jsOrNat o 3 := by
  cases o with
  | none => simp [jsOrNat]
  | some n => cases n <;> simp [jsOrNat]

theorem executeQueryLoop_attempts_le {α : Type} (att : Nat → Except JsError α)
    (d : Int) (skip : Bool) (m : Nat) :
    ∀ r i delays, (executeQueryLoop att d skip m i r delays).attemptsMade ≤ i + r := by
  intro r
  induction r with
  | zero => intro i delays; simp [executeQueryLoop]
  | succ r ih =>
    intro i delays
    cases hatt : att i with
    | ok v => simp [executeQueryLoop, hatt]
    | error e =>
      simp only [executeQueryLoop, hatt]
      split
      · simp
      · split
        · simp
        · split
          · simp
          · have := ih (i + 1) (delays ++ [d * ((i : Int) + 1)])
            omega

theorem executeQueryLoop_attempts_ge {α : Type} (att : Nat → Except JsError α)
    (d : Int) (skip : Bool) (m : Nat) :
    ∀ r i delays, i + r = m → 1 ≤ r →
      i + 1 ≤ (executeQueryLoop att d skip m i r delays).attemptsMade := by
  intro r
  induction r with
  | zero => intro i delays _ h1; omega
  | succ r ih =>
    intro i delays hinv _
    cases hatt : att i with
    | ok v => simp [executeQueryLoop, hatt]
    | error e =>
      simp only [executeQueryLoop, hatt]
      split
      · simp
      · split
        · simp
        · split
          · simp
          · rename_i hlast
            have hr1 : 1 ≤ r := by
              rcases Nat.eq_zero_or_pos r with h0 | h1
              · exfalso
                apply hlast
                subst h0
                have hieq : i = m - 1 := by omega
                simp [hieq]
              · exact h1
            have := ih (i + 1) (delays ++ [d * ((i : Int) + 1)]) (by omega) hr1
            omega

theorem executeQueryLoop_delays_prefix {α : Type} (att : Nat → Except JsError α)
    (d : Int) (skip : Bool) (m : Nat) :
    ∀ r i delays, ∃ tail,
      (executeQueryLoop att d skip m i r delays).delays = delays ++ tail := by
  intro r
  induction r with
  | zero => intro i delays; exact ⟨[], by simp [executeQueryLoop]⟩
  | succ r ih =>
    intro i delays
    cases hatt : att i with
    | ok v => exact ⟨[], by simp [executeQueryLoop, hatt]⟩
    | error e =>
      simp only [executeQueryLoop, hatt]
      split
      · exact ⟨[], by simp⟩
      · split
        · exact ⟨[], by simp⟩
        · split
          · exact ⟨[], by simp⟩
          · obtain ⟨tail, htail⟩ := ih (i + 1) (delays ++ [d * ((i : Int) + 1)])
            exact ⟨[d * ((i : Int) + 1)] ++ tail, by rw [htail, List.append_assoc]⟩

/-- C5 amended: `executeQuery` fails fast (single attempt, no backoff) on
quota-exceeded errors always, and on permission-denied errors unless the
caller passes `skipRetryOnPermission: false`; every other classification —
including query/syntax errors — is retried with linear backoff whose first
wait is `retryDelay * 1`, and the total number of attempts never exceeds the
effective `maxRetries` (`options.maxRetries || 3`). -/
theorem executeQuery_retry_policy (α : Type) (att : Nat → Except JsError α)
    (options : ExecOptions) :
    (∀ e, att 0 = Except.error e →
      (parseClickHouseError e).type = ErrorType.quotaExceeded →
      (executeQuery att options).result
          = some (Except.error (parseClickHouseError e))
      ∧ (executeQuery att options).attemptsMade = 1
      ∧ (executeQuery att options).delays = [])
    ∧ (∀ e, att 0 = Except.error e →
      (parseClickHouseError e).type = ErrorType.permissionDenied →
      options.skipRetryOnPermission ≠ some false →
      (executeQuery att options).result
          = some (Except.error (parseClickHouseError e))
      ∧ (executeQuery att options).attemptsMade = 1
      ∧ (executeQuery att options).delays = [])
    ∧ (∀ e, att 0 = Except.error e →
      (parseClickHouseError e).type ≠ ErrorType.quotaExceeded →
      ((parseClickHouseError e).type = ErrorType.permissionDenied →
        options.skipRetryOnPermission = some false) →
      2 ≤ jsOrNat options.maxRetries 3 →
      2 ≤ (executeQuery att options).attemptsMade
      ∧ (executeQuery att options).delays.head?
          = some (jsOrInt options.retryDelay 1000 * 1))
    ∧ (executeQuery att options).attemptsMade ≤ jsOrNat options.maxRetries 3 := by
  have hm := one_le_jsOrNat options.maxRetries
  obtain ⟨r, hr⟩ : ∃ r, jsOrNat options.maxRetries 3 = r + 1 :=
    ⟨jsOrNat options.maxRetries 3 - 1, by omega⟩
  have hrw : executeQuery att options
      = executeQueryLoop att (jsOrInt options.retryDelay 1000)
          (!(options.skipRetryOnPermission == some false)) (r + 1) 0 (r + 1) [] := by
    rw [← hr]; rfl
  refine ⟨?_, ?_, ?_, ?_⟩
  · intro e hatt hq
    rw [hrw]
    simp [executeQueryLoop, hatt, hq]
  · intro e hatt hp hskip
    have hskipb : (options.skipRetryOnPermission == some false) = false := by
      simpa using hskip
    rw [hrw]
    simp [executeQueryLoop, hatt, hp, hskipb]
  · intro e hatt hq himp h2
    have hr1 : 1 ≤ r := by omega
    have hskipv : ((!(options.skipRetryOnPermission == some false))
        && ((parseClickHouseError e).type == ErrorType.permissionDenied)) = false := by
      by_cases hp : (parseClickHouseError e).type = ErrorType.permissionDenied
      · simp [himp hp]
      · simp [hp]
    have hc2 : ((parseClickHouseError e).type == ErrorType.quotaExceeded) = false := by
      simpa using hq
    have hc3 : ((0 : Nat) == (r + 1) - 1) = false := by
      have hne : (0 : Nat) ≠ (r + 1) - 1 := by omega
      simpa using hne
    rw [hrw]
    simp only [executeQueryLoop, hatt, hskipv, hc2, hc3, Bool.false_eq_true, if_false,
      List.nil_append]
    constructor
    · have hge := executeQueryLoop_attempts_ge att (jsOrInt options.retryDelay 1000)
        (!(options.skipRetryOnPermission == some false)) (r + 1) r (0 + 1)
        [jsOrInt options.retryDelay 1000 * ((0 : Nat) + 1 : Int)] (by omega) hr1
      omega
    · obtain ⟨tail, htail⟩ := executeQueryLoop_delays_prefix att
        (jsOrInt options.retryDelay 1000)
        (!(options.skipRetryOnPermission == some false)) (r + 1) r (0 + 1)
        [jsOrInt options.retryDelay 1000 * ((0 : Nat) + 1 : Int)]
      rw [htail]
      simp
  · have hle := executeQueryLoop_attempts_le att (jsOrInt options.retryDelay 1000)
      (!(options.skipRetryOnPermission == some false)) (jsOrNat options.maxRetries 3)
      (jsOrNat options.maxRetries 3) 0 []
    have hq : executeQuery att options
        = executeQueryLoop att (jsOrInt options.retryDelay 1000)
            (!(options.skipRetryOnPermission == some false))
            (jsOrNat options.maxRetries 3) 0 (jsOrNat options.maxRetries 3) [] := rfl
    rw [hq]
    omega

/-- Witness for C5 amended: a quota-classified error fails fast with a
single attempt under default options. -/
theorem executeQuery_retry_policy_witness :
    (executeQuery (α := Nat)
        (fun _ => Except.error (JsError.mk "Quota limit exceeded" none))
        (ExecOptions.mk none none none)).attemptsMade = 1 := by
  exact ((executeQuery_retry_policy Nat
    (fun _ => Except.error (JsError.mk "Quota limit exceeded" none))
    (ExecOptions.mk none none none)).1 _ rfl (by decide)).2.1

/-- C6 amended: in the materialized-views route, when `system.dependencies`
is probed present and its query succeeds with a nonempty source (resp.
target) list for the view, that tier-1 output is used verbatim and the
source fallbacks 1-2 (resp. the TO-parse fallback 3) do not run; but when
the successful tier-1 query yields no sources for the view, fallback 1 still
runs whenever the view's dependency-metadata fields are truthy. -/
theorem tier1_priority (view : ViewInfo) (deps : List DepRow) :
    (tier1Sources deps view ≠ [] →
      (processView true (Except.ok deps) view).1.1 = tier1Sources deps view
      ∧ (processView true (Except.ok deps) view).2.fallback1 = false
      ∧ (processView true (Except.ok deps) view).2.fallback2 = false)
    ∧ (tier1Targets deps view ≠ [] →
      (processView true (Except.ok deps) view).1.2 = tier1Targets deps view
      ∧ (processView true (Except.ok deps) view).2.fallback3 = false)
    ∧ (tier1Sources deps view = [] →
      jsTruthyDep view.dependencies_database = true →
      jsTruthyDep view.dependencies_table = true →
      (processView true (Except.ok deps) view).2.fallback1 = true) := by
  refine ⟨?_, ?_, ?_⟩
  · intro hs
    have h1 : (tier1Sources deps view).isEmpty = false := by
      cases h : tier1Sources deps view with
      | nil => exact absurd h hs
      | cons a l => rfl
    simp [processView, h1]
  · intro ht
    have h2 : (tier1Targets deps view).isEmpty = false := by
      cases h : tier1Targets deps view with
      | nil => exact absurd h ht
      | cons a l => rfl
    simp [processView, h2]
  · intro hs hdb htb
    have h1 : (tier1Sources deps view).isEmpty = true := by simp [hs]
    simp [processView, h1, hdb, htb]

/-- Witness for C6 amended: a view whose tier-1 query returns one source row
keeps that row verbatim and skips fallback 1 despite truthy metadata. -/
theorem tier1_priority_witness :
    (processView true (Except.ok [DepRow.mk "src" "t" "analytics" "mv"])
        (ViewInfo.mk "analytics" "mv" (DepField.str "x") (DepField.str "y") none)).1.1
      = [TableRef.mk "src" "t"]
    ∧ (processView true (Except.ok [DepRow.mk "src" "t" "analytics" "mv"])
        (ViewInfo.mk "analytics" "mv" (DepField.str "x")
          (DepField.str "y") none)).2.fallback1 = false := by
  have h := (tier1_priority
    (ViewInfo.mk "analytics" "mv" (DepField.str "x") (DepField.str "y") none)
    [DepRow.mk "src" "t" "analytics" "mv"]).1 (by decide)
  exact ⟨by rw [h.1]; decide, h.2.1⟩

/-- C7: the CREATE-statement extraction (fallback 2). Scenario B: a view in
database `analytics` with no tier-1 data, falsy metadata, and a CREATE
statement reading FROM `raw`.`events` (backtick-quoted) yields the source
`{database := "raw", table := "events"}` through the full per-view
processing. In general every extracted table name is backtick-free, an
extracted qualifier is backtick-free, and when the regex matched without a
schema qualifier the database defaults to the view's own. -/
theorem mv_from_extraction (create : String) (vdb : String) :
    ((processView false (Except.ok [])
        (ViewInfo.mk "analytics" "mv" DepField.null DepField.null
          (some "CREATE MATERIALIZED VIEW analytics.mv AS SELECT id FROM `raw`.`events` GROUP BY id"))).1.1
      = [TableRef.mk "raw" "events"])
    ∧ (∀ r, extractFromSource vdb create = some r →
        (∀ ch ∈ r.table.data, ch ≠ backtick)
        ∧ (∀ q t, scanKeyword "from".data false none create.data = some (some q, t) →
            ∀ ch ∈ r.database.data, ch ≠ backtick)
        ∧ (∀ t, scanKeyword "from".data false none create.data = some (none, t) →
            r.database = vdb)) := by
  constructor
  · decide
  · intro r hr
    cases hscan : scanKeyword "from".data false none create.data with
    | none =>
      unfold extractFromSource at hr
      rw [hscan] at hr
      exact absurd hr (by simp)
    | some g =>
      obtain ⟨g1, g2⟩ := g
      have heq : extractFromSource vdb create =
          (if ((stripBackticks g2).asString == "") = true then none
           else some { database := qualifierOr vdb g1,
                       table := (stripBackticks g2).asString }) := by
        unfold extractFromSource
        rw [hscan]
      rw [heq] at hr
      by_cases hemp : ((stripBackticks g2).asString == "") = true
      · rw [if_pos hemp] at hr
        exact absurd hr (by simp)
      · rw [if_neg hemp] at hr
        injection hr with hr'
        subst hr'
        refine ⟨?_, ?_, ?_⟩
        · intro ch hch
          have hmem := List.mem_filter.mp hch
          simpa using hmem.2
        · intro q t hq
          injection hq with hq'
          have hg1 : g1 = some q := congrArg Prod.fst hq'
          subst hg1
          intro ch hch
          have hmem := List.mem_filter.mp hch
          simpa using hmem.2
        · intro t hq
          injection hq with hq'
          have hg1 : g1 = none := congrArg Prod.fst hq'
          subst hg1
          rfl

/-- Witness for C7: at the concrete statement FROM `raw`.`events`, both
extracted identifiers come out backtick-free. -/
theorem mv_from_extraction_witness :
    (∀ ch ∈ ("events" : String).data, ch ≠ backtick)
    ∧ (∀ ch ∈ ("raw" : String).data, ch ≠ backtick) := by
  have h := (mv_from_extraction "SELECT a FROM `raw`.`events`" "analytics").2
    (TableRef.mk "raw" "events") (by decide)
  exact ⟨h.1, h.2.1 "`raw`".data "`events`".data (by decide)⟩
